import Mathlib

/-!
# Verification of the `ede` text editor engine (src/ede.c)

Shallow embedding of the gap-buffer text engine of GNU ede v1.0:
the `GapBuffer` store (`buffer_insert_char`, `buffer_delete_char`,
`buffer_grow`, `buffer_load_file`, `buffer_save_file`, `buffer_get_line`),
the undo/redo history (`undo_push`, `undo_perform`, `redo_perform`),
the search/replace operations (`search_match`, `search_find_next`,
`search_replace_current`, `search_replace_all`), the text-input fragment of
`editor_process_key`, the Ctrl+S save handler, and the per-line syntax
classification implied by `render_syntax_highlighted_line`.

Modelling conventions:
* Bytes are `Nat`; C strings and file contents are `List Nat`.
* The physical backing array `content` of a gap buffer is an explicit list;
  its logical text is `content[0, gap_start) ++ content[gap_end, buffer_size)`.
* `size_t` arithmetic that can wrap, and memory accesses that would be out of
  bounds (undefined behaviour in C), are modelled by returning `none`.
* Fields that the C code leaves uninitialized (`malloc` without assignment)
  are noted at their definition; where their value can matter they are taken
  as parameters of the scenario.
* Bounded loops are modelled with explicit fuel where the C loop bound is
  data-dependent; each fuel step corresponds to exactly one loop iteration.
-/

set_option maxRecDepth 16384

namespace Ede

/-- `#define MAX_LINE_LENGTH 4096` -/
def MAX_LINE_LENGTH : Nat := 4096

/-- `#define INITIAL_BUFFER_SIZE 1024` -/
def INITIAL_BUFFER_SIZE : Nat := 1024

/-- `#define MAX_UNDO_LEVELS 100` -/
def MAX_UNDO_LEVELS : Nat := 100

/-- `OperationType` from src/ede.c (undo/redo operation tags). -/
inductive OperationType where
  | OP_INSERT
  | OP_DELETE
  | OP_REPLACE
deriving DecidableEq, Repr

/-- `UndoEntry` from src/ede.c.  `undo_create_entry` copies exactly
`data_len` bytes into `data`, so the C field `data_len` always equals the
length of `data` and is represented by `data.length`. The doubly linked
`next`/`prev` chain is represented as a list whose head is the newest
(top) entry. -/
structure UndoEntry where
  type : OperationType
  position : Nat
  data : List Nat
deriving DecidableEq, Repr

/-- `GapBuffer` from src/ede.c.  `content` is the physical `malloc`ed array
(of length `buffer_size` in every state the program constructs); the bytes
inside the gap `[gap_start, gap_end)` are part of the physical array but not
of the logical text. -/
structure GapBuffer where
  content : List Nat
  gap_start : Nat
  gap_end : Nat
  buffer_size : Nat
  undo_stack : List UndoEntry
  redo_stack : List UndoEntry
  undo_count : Nat
  redo_count : Nat
deriving DecidableEq, Repr

/-- The logical text of a gap buffer: the bytes before the gap followed by
the bytes after the gap, exactly the bytes `buffer_save_file` writes
(`fwrite(content, 1, gap_start)` then
`fwrite(content + gap_end, 1, buffer_size - gap_end)`). -/
def GapBuffer.text (b : GapBuffer) : List Nat :=
  b.content.take b.gap_start ++ (b.content.drop b.gap_end).take (b.buffer_size - b.gap_end)

/-- `buffer_create` from src/ede.c: `malloc(INITIAL_BUFFER_SIZE)` with
`gap_start = 0`, `gap_end = buffer_size`.  The malloc'ed bytes are
unspecified, so the model takes them as the parameter `init` (length 1024 in
every faithful instantiation).  The C code never initializes the
`undo_stack`/`redo_stack`/`undo_count`/`redo_count` fields of a fresh buffer
(itself a defect); the model adopts the empty-history reading, which is the
only one under which the program is well defined. -/
def buffer_create (init : List Nat) : GapBuffer :=
  { content := init
    gap_start := 0
    gap_end := INITIAL_BUFFER_SIZE
    buffer_size := INITIAL_BUFFER_SIZE
    undo_stack := []
    redo_stack := []
    undo_count := 0
    redo_count := 0 }

/-- `memmove(l + dst, l + src, n)` on a list: the spliced copy
`l[0,dst) ++ l[src, src+n) ++ l[dst+n, …)`.  Faithful to C for in-range
`dst`, `src`, `n` (out-of-range accesses are undefined behaviour in C; the
operations below are only ever applied in range in the proved scenarios). -/
def listMemmove (l : List Nat) (dst src n : Nat) : List Nat :=
  l.take dst ++ (l.drop src).take n ++ l.drop (dst + n)

/-- The doubling loop of `buffer_grow`:
`while (new_size < min_size) new_size *= 2`.  The fuel argument is
instantiated with `min_size`, which bounds the iteration count whenever
`new_size ≥ 1` (the program always starts it at `2 * buffer_size ≥ 2048`);
with `new_size = 0` the C loop would never terminate. -/
def grow_loop : Nat → Nat → Nat → Nat
  | 0, new_size, _ => new_size
  | fuel + 1, new_size, min_size =>
      if new_size < min_size then grow_loop fuel (2 * new_size) min_size else new_size

/-- `buffer_grow` from src/ede.c.  The code updates `gap_end` to
`new_size - (buffer_size - gap_end)` *before* computing the length
`buffer_size - gap_end` of the tail `memcpy`, so that length is computed
from the *new* `gap_end`.  Whenever the new `gap_end` exceeds
`buffer_size`, the `size_t` subtraction wraps around and the `memcpy`
reads and writes far out of bounds: undefined behaviour, modelled as
`none`.  In the surviving case the freshly malloc'ed bytes of the new
array are unspecified and modelled as `0`; no proved statement depends on
their value. -/
def buffer_grow (buf : GapBuffer) (min_size : Nat) : Option GapBuffer :=
  let new_size := grow_loop min_size (buf.buffer_size * 2) min_size
  let ge' := new_size - (buf.buffer_size - buf.gap_end)
  if ge' ≤ buf.buffer_size then
    let len := buf.buffer_size - ge'
    let newc := (List.range new_size).map fun i =>
      if i < buf.gap_start then buf.content.getD i 0
      else if ge' ≤ i ∧ i < ge' + len then buf.content.getD i 0
      else 0
    some { buf with content := newc, buffer_size := new_size, gap_end := ge' }
  else none

/-- The body of `buffer_insert_char` from src/ede.c after the grow check
(the gap is nonempty here).  Note the `pos < gap_start` branch: after the
shift the code sets `gap_start = pos + 1` and then writes the new byte at
`content[gap_start++]`, i.e. at `pos + 1`, leaving the final
`gap_start = pos + 2`; the bytes formerly at `pos + 1 … gap_start - 1` end
up inside the gap. -/
def buffer_insert_core (buf : GapBuffer) (c : Nat) (pos : Nat) : GapBuffer :=
  if pos < buf.gap_start then
    let c1 := listMemmove buf.content (pos + 1) pos (buf.gap_start - pos)
    { buf with content := c1.set (pos + 1) c, gap_start := pos + 2 }
  else if pos > buf.gap_start then
    let n := pos - buf.gap_start
    let actual := pos + (buf.gap_end - buf.gap_start)
    let c1 := listMemmove buf.content buf.gap_end actual n
    { buf with content := c1.set pos c, gap_end := buf.gap_end + n, gap_start := pos + 1 }
  else
    { buf with content := buf.content.set pos c, gap_start := pos + 1 }

/-- `buffer_insert_char` from src/ede.c: grow when the gap is empty, then
insert.  A failing grow (its out-of-bounds `memcpy`) propagates as
`none`. -/
def buffer_insert_char (buf : GapBuffer) (c : Nat) (pos : Nat) : Option GapBuffer :=
  if buf.gap_end - buf.gap_start = 0 then
    (buffer_grow buf (buf.buffer_size + 1)).map fun b => buffer_insert_core b c pos
  else
    some (buffer_insert_core buf c pos)

/-- `buffer_delete_char` from src/ede.c.  For `pos ≥ gap_start` it grows the
gap at its right end (removing the logical byte at index `gap_start`, not at
`pos`); otherwise it shrinks `gap_start` (removing the logical byte at index
`gap_start - 1`, not at `pos`).  `pos ≥ 0` is always true for the C
`size_t` argument. -/
def buffer_delete_char (buf : GapBuffer) (pos : Nat) : GapBuffer :=
  if pos ≥ buf.gap_start then
    if pos + (buf.gap_end - buf.gap_start) < buf.buffer_size then
      { buf with gap_end := buf.gap_end + 1 }
    else buf
  else
    { buf with gap_start := buf.gap_start - 1 }

/-- `buffer_load_file` from src/ede.c, success path of `fopen`: the file's
bytes `data` are `fread` into the front of the array after growing when
`size > buffer_size`; then `gap_start = size` (and `gap_end` is left
unchanged by the load itself). -/
def buffer_load_file (buf : GapBuffer) (data : List Nat) : Option GapBuffer :=
  let size := data.length
  let grown : Option GapBuffer :=
    if size > buf.buffer_size then buffer_grow buf size else some buf
  grown.map fun b =>
    { b with content := data ++ b.content.drop size, gap_start := size }

/-- The bytes `buffer_save_file` writes:
`content[0, gap_start)` followed by `content[gap_end, buffer_size)`. -/
def saved_bytes (buf : GapBuffer) : List Nat := buf.text

/-- `buffer_save_file` from src/ede.c: when `fopen` fails the function
returns without writing anything (`none`); otherwise the two `fwrite`s emit
`saved_bytes`.  The buffer itself is never modified. -/
def buffer_save_file (buf : GapBuffer) (openOk : Bool) : Option (List Nat) :=
  if openOk then some (saved_bytes buf) else none

/-- The scan loop of `buffer_get_line` from src/ede.c.  The C loop walks the
physical positions `0 … gap_start - 1, gap_end … buffer_size - 1`, i.e.
exactly the logical text, counting newlines; once on the requested line it
collects bytes until a newline, the end of the text, or the
`MAX_LINE_LENGTH - 1` truncation check (`if (col >= MAX_LINE_LENGTH - 1)
break`, tested after `col` was incremented by the store).  It returns the
collected line when the walk ended on the requested line and `NULL`
(`none`) otherwise. -/
def get_line_go (target : Nat) : Nat → Nat → List Nat → List Nat → Option (List Nat)
  | cur, _col, acc, [] => if cur = target then some acc.reverse else none
  | cur, col, acc, c :: rest =>
      if cur = target then
        if c = 10 then some acc.reverse
        else if col + 1 ≥ MAX_LINE_LENGTH - 1 then some (c :: acc).reverse
        else get_line_go target cur (col + 1) (c :: acc) rest
      else if c = 10 then get_line_go target (cur + 1) col acc rest
      else get_line_go target cur col acc rest

/-- `buffer_get_line` from src/ede.c (the returned `line_len` is the length
of the returned list). -/
def buffer_get_line (buf : GapBuffer) (line_num : Nat) : Option (List Nat) :=
  get_line_go line_num 0 0 [] buf.text

/-! ## Undo/redo system (src/ede.c lines 421-519) -/

/-- `undo_push` from src/ede.c: when `undo_count` has reached
`MAX_UNDO_LEVELS` the oldest entry (the tail of the chain) is removed; the
new entry is pushed on top; the redo stack is cleared unconditionally. -/
def undo_push (buf : GapBuffer) (t : OperationType) (position : Nat) (data : List Nat) :
    GapBuffer :=
  let buf1 :=
    if buf.undo_count ≥ MAX_UNDO_LEVELS then
      if buf.undo_stack = [] then buf
      else { buf with undo_stack := buf.undo_stack.dropLast, undo_count := buf.undo_count - 1 }
    else buf
  { buf1 with
      undo_stack := ⟨t, position, data⟩ :: buf1.undo_stack
      undo_count := buf1.undo_count + 1
      redo_stack := []
      redo_count := 0 }

/-- `delete_seq buf n pos`: `n` calls of `buffer_delete_char buf pos`, all
at the same `pos` (the loops in `undo_perform`/`redo_perform`/
`search_replace_current`). -/
def delete_seq (buf : GapBuffer) : Nat → Nat → GapBuffer
  | 0, _ => buf
  | n + 1, pos => delete_seq (buffer_delete_char buf pos) n pos

/-- `insert_seq buf data pos`: insert `data[i]` at `pos + i` for each `i`
(the loops in `undo_perform`/`redo_perform`/`search_replace_current`). -/
def insert_seq (buf : GapBuffer) : List Nat → Nat → Option GapBuffer
  | [], _ => some buf
  | c :: rest, pos => (buffer_insert_char buf c pos).bind fun b => insert_seq b rest (pos + 1)

/-- `undo_perform` from src/ede.c: with an empty undo stack it returns at
once; otherwise it pops the top entry, applies its inverse (delete the
inserted bytes for `OP_INSERT`, re-insert the deleted bytes for
`OP_DELETE`, nothing for `OP_REPLACE`), and moves the entry to the redo
stack. -/
def undo_perform (buf : GapBuffer) : Option GapBuffer :=
  match buf.undo_stack with
  | [] => some buf
  | entry :: rest =>
      let b1 := { buf with undo_stack := rest, undo_count := buf.undo_count - 1 }
      let b2 : Option GapBuffer :=
        match entry.type with
        | .OP_INSERT => some (delete_seq b1 entry.data.length entry.position)
        | .OP_DELETE => insert_seq b1 entry.data entry.position
        | .OP_REPLACE => some b1
      b2.map fun b =>
        { b with redo_stack := entry :: b.redo_stack, redo_count := b.redo_count + 1 }

/-- `redo_perform` from src/ede.c: the mirror of `undo_perform`. -/
def redo_perform (buf : GapBuffer) : Option GapBuffer :=
  match buf.redo_stack with
  | [] => some buf
  | entry :: rest =>
      let b1 := { buf with redo_stack := rest, redo_count := buf.redo_count - 1 }
      let b2 : Option GapBuffer :=
        match entry.type with
        | .OP_INSERT => insert_seq b1 entry.data entry.position
        | .OP_DELETE => some (delete_seq b1 entry.data.length entry.position)
        | .OP_REPLACE => some b1
      b2.map fun b =>
        { b with undo_stack := entry :: b.undo_stack, undo_count := b.undo_count + 1 }

/-! ## FileBuffer and search (src/ede.c lines 135-145, 163-182, 557-673) -/

/-- The slice of the C `FileBuffer` (src/ede.c lines 163-182) the engine
claims touch, with its embedded `SearchState`.  `tab_add_file` initializes
only `filepath`, `buffer`, `modified` and the cursor/offset fields;
`line_count` and the whole `SearchState` are left uninitialized
(`search_init` and `update_line_count` are defined but never called), so
scenarios take their values as parameters.  `whole_word` is carried because
`SearchState` declares it; no code ever reads it. -/
structure FileBuffer where
  filepath : Option (List Nat)
  buffer : GapBuffer
  modified : Bool
  cursor_row : Nat
  cursor_col : Nat
  line_count : Nat
  pattern : List Nat
  replace_text : List Nat
  case_sensitive : Bool
  whole_word : Bool
  current_match : Int
deriving DecidableEq, Repr

/-- `tab_add_file` from src/ede.c, for a fresh file: `buffer_create` then
`buffer_load_file`, cursor at the origin, not modified.  The uninitialized
fields (`line_count`, the `SearchState`) are passed in as parameters. -/
def tab_add_file (init : List Nat) (data : List Nat) (lc : Nat)
    (pat rep : List Nat) (cs ww : Bool) (cm : Int) : Option FileBuffer :=
  (buffer_load_file (buffer_create init) data).map fun b =>
    { filepath := some []
      buffer := b
      modified := false
      cursor_row := 0
      cursor_col := 0
      line_count := lc
      pattern := pat
      replace_text := rep
      case_sensitive := cs
      whole_word := ww
      current_match := cm }

/-- `tolower` on a byte as used by `search_match`. -/
def byte_tolower (c : Nat) : Nat := if 65 ≤ c ∧ c ≤ 90 then c + 32 else c

/-- `strstr(text, pat) != NULL`: `pat` occurs contiguously in `text`
(the empty pattern matches). -/
def strstrB (text pat : List Nat) : Bool :=
  (List.range (text.length + 1)).any fun i => (text.drop i).take pat.length = pat

/-- `search_match` from src/ede.c: a plain `strstr` test, case-folding both
sides first when insensitive.  Note that it tests whether the pattern
occurs *anywhere* in `text` (the suffix of the row the caller passes), not
whether it starts at the first byte, and that it never consults
`whole_word`. -/
def search_match (text pat : List Nat) (case_sensitive : Bool) : Bool :=
  if case_sensitive then strstrB text pat
  else strstrB (text.map byte_tolower) (pat.map byte_tolower)

/-- The column loop of `search_find_next`: the first `col` in
`[startCol, line.length)` with `search_match(&line[col], pattern)`. -/
def first_match_col (line pat : List Nat) (cs : Bool) (startCol : Nat) : Option Nat :=
  (List.range line.length).find? fun col =>
    decide (startCol ≤ col) && search_match (line.drop col) pat cs

/-- The row loop of `search_find_next` over the rows
`cursor_row … line_count - 1` (rows whose `buffer_get_line` is `NULL` are
skipped). -/
def find_next_scan (buf : GapBuffer) (pat : List Nat) (cs : Bool)
    (startRow startCol : Nat) : List Nat → Option (Nat × Nat)
  | [] => none
  | r :: rest =>
      match buffer_get_line buf r with
      | none => find_next_scan buf pat cs startRow startCol rest
      | some line =>
          match first_match_col line pat cs (if r = startRow then startCol else 0) with
          | some col => some (r, col)
          | none => find_next_scan buf pat cs startRow startCol rest

/-- `search_find_next` from src/ede.c: `-1` on an empty pattern with the
state untouched; otherwise scan from `(cursor_row, cursor_col + 1)` to the
end, and on a hit move the cursor there, bump `current_match` and return
`1`; `0` when nothing is found. -/
def search_find_next (fb : FileBuffer) : FileBuffer × Int :=
  if fb.pattern = [] then (fb, -1)
  else
    match find_next_scan fb.buffer fb.pattern fb.case_sensitive fb.cursor_row
        (fb.cursor_col + 1) ((List.range fb.line_count).drop fb.cursor_row) with
    | some (r, c) =>
        ({ fb with cursor_row := r, cursor_col := c, current_match := fb.current_match + 1 }, 1)
    | none => (fb, 0)

/-- `search_replace_current` from src/ede.c: a no-op when the pattern or
the replacement is empty or the cursor row has no line; otherwise delete
`pattern.length` bytes, each by `buffer_delete_char` at the same
`pos = cursor_row * MAX_LINE_LENGTH + cursor_col`, then insert the
replacement bytes at `pos, pos + 1, …`, and set `modified`. -/
def search_replace_current (fb : FileBuffer) : Option FileBuffer :=
  if fb.pattern = [] ∨ fb.replace_text = [] then some fb
  else
    match buffer_get_line fb.buffer fb.cursor_row with
    | none => some fb
    | some _line =>
        let pos := fb.cursor_row * MAX_LINE_LENGTH + fb.cursor_col
        let b1 := delete_seq fb.buffer fb.pattern.length pos
        (insert_seq b1 fb.replace_text pos).map fun b2 =>
          { fb with buffer := b2, modified := true }

/-- The `while (search_find_next(fb) > 0)` loop of `search_replace_all`.
One fuel unit per iteration; `none` only when the fuel runs out before the
C loop would have exited (never the case in the proved scenarios). -/
def replace_all_loop : Nat → FileBuffer → Nat → Option (FileBuffer × Nat)
  | 0, _, _ => none
  | fuel + 1, fb, count =>
      let (fb1, r) := search_find_next fb
      if r > 0 then
        (search_replace_current fb1).bind fun fb2 => replace_all_loop fuel fb2 (count + 1)
      else some (fb1, count)

/-- `search_replace_all` from src/ede.c: reset the cursor to `(0, 0)`, then
repeatedly find-next and replace, returning the replacement count. -/
def search_replace_all (fuel : Nat) (fb : FileBuffer) : Option (FileBuffer × Nat) :=
  replace_all_loop fuel { fb with cursor_row := 0, cursor_col := 0 } 0

/-- Repeatedly invoking `search_find_next` from the current state counts
how many times a user-driven search steps to a further match before
`search_find_next` reports no match; this is the only match-counting
behaviour the program has (it keeps no match list, and the `match_count`
field is never written after `search_init`). -/
def search_count : Nat → FileBuffer → Nat
  | 0, _ => 0
  | fuel + 1, fb =>
      let (fb1, r) := search_find_next fb
      if r > 0 then search_count fuel fb1 + 1 else 0

/-! ## Editor key handling (src/ede.c lines 1810-1912, 1839-1857, 4007-4023) -/

/-- The regular-text-input fragment of `editor_process_key` (src/ede.c
lines 1893-1911), acting on the active `FileBuffer`: a printable key
(`32 ≤ key < 127`) inserts at `cursor_row * MAX_LINE_LENGTH + cursor_col`
and advances the cursor; backspace (`key = 8`) with `cursor_col > 0`
deletes at the position one left of the cursor and retreats it.  Both paths
set `modified`; neither touches the undo or redo stack.  Other keys leave
the file untouched. -/
def editor_process_text_key (fb : FileBuffer) (key : Nat) : Option FileBuffer :=
  if 32 ≤ key ∧ key < 127 then
    let pos := fb.cursor_row * MAX_LINE_LENGTH + fb.cursor_col
    (buffer_insert_char fb.buffer key pos).map fun b =>
      { fb with buffer := b, cursor_col := fb.cursor_col + 1, modified := true }
  else if key = 8 then
    if fb.cursor_col > 0 then
      let pos := fb.cursor_row * MAX_LINE_LENGTH + fb.cursor_col - 1
      some { fb with buffer := buffer_delete_char fb.buffer pos
                     cursor_col := fb.cursor_col - 1, modified := true }
    else some fb
  else some fb

/-- A sequence of keystrokes fed one by one through the text-input
fragment of `editor_process_key`. -/
def process_keys (fb : FileBuffer) : List Nat → Option FileBuffer
  | [] => some fb
  | k :: ks => (editor_process_text_key fb k).bind fun fb1 => process_keys fb1 ks

/-- The undo stack of an optional file state (`[]` for a failed state);
lets statements about `process_keys` avoid naming the resulting state. -/
def undo_stack_of : Option FileBuffer → List UndoEntry
  | none => []
  | some fb => fb.buffer.undo_stack

/-- The Ctrl+S branch of `editor_process_key` (src/ede.c lines 1839-1857):
with a filepath present it calls `buffer_save_file` — which silently
returns when `fopen` fails — and then sets `fb->modified = false`
*unconditionally* (`buffer_save_file` returns `void`, so the caller cannot
observe the failure).  Returns the new file state and the bytes written
(`none` when nothing was written). -/
def editor_ctrl_s (fb : FileBuffer) (openOk : Bool) : FileBuffer × Option (List Nat) :=
  match fb.filepath with
  | none => (fb, none)
  | some _ => ({ fb with modified := false }, buffer_save_file fb.buffer openOk)

/-- `menu_callback_undo` (src/ede.c lines 4007-4014): `undo_perform` on the
current buffer. -/
def menu_callback_undo (fb : FileBuffer) : Option FileBuffer :=
  (undo_perform fb.buffer).map fun b => { fb with buffer := b }

/-- `menu_callback_redo` (src/ede.c lines 4016-4023). -/
def menu_callback_redo (fb : FileBuffer) : Option FileBuffer :=
  (redo_perform fb.buffer).map fun b => { fb with buffer := b }

/-! ## Syntax classification (src/ede.c lines 3296-3331) -/

/-- The per-character categories `render_syntax_highlighted_line` can
render: a double-quoted span (string colour), `//` to end of line (comment
colour), a digit (number colour), anything else plain. -/
inductive SynClass where
  | normal
  | string
  | comment
  | number
deriving DecidableEq, Repr

/-- The classification `render_syntax_highlighted_line` assigns to each
byte of one line, read off from the colour escapes it prints.  The function
takes only `(line, line_len)`: it has no cross-row input and no cross-row
output.  Fuel is the number of bytes still unprocessed (each step consumes
at least one byte, so `line.length` fuel always suffices). -/
def classify_go : Nat → List Nat → List (Nat × SynClass)
  | 0, _ => []
  | _, [] => []
  | fuel + 1, c :: rest =>
      if c = 34 then
        let inner := rest.takeWhile (fun b => !(b = 34 : Bool))
        let after := rest.dropWhile (fun b => !(b = 34 : Bool))
        match after with
        | closing :: rest2 =>
            (c, .string) :: (inner.map fun b => (b, SynClass.string)) ++
              (closing, .string) :: classify_go fuel rest2
        | [] => (c, .string) :: (inner.map fun b => (b, SynClass.string))
      else if c = 47 ∧ rest.head? = some 47 then
        (c :: rest).map fun b => (b, SynClass.comment)
      else if 48 ≤ c ∧ c ≤ 57 then
        (c, .number) :: classify_go fuel rest
      else
        (c, .normal) :: classify_go fuel rest

/-- Classification of one rendered line. -/
def classify_line (line : List Nat) : List (Nat × SynClass) :=
  classify_go line.length line

/-- Classification of a whole buffer, row by row.  This is definitionally a
`map` of the one-row function: `render_syntax_highlighted_line` receives
nothing from other rows, so no state of any kind — comment-open or
otherwise — crosses a row boundary. -/
def classify_buffer (rows : List (List Nat)) : List (List (Nat × SynClass)) :=
  rows.map classify_line

/-! ## Shared scenario data -/

/-- A fixed instantiation of the unspecified `malloc` contents of a fresh
`INITIAL_BUFFER_SIZE` buffer. -/
def zeros1024 : List Nat := List.replicate 1024 0

/-- The bytes of `"cat scatter cats"`. -/
def catData : List Nat := [99, 97, 116, 32, 115, 99, 97, 116, 116, 101, 114, 32, 99, 97, 116, 115]

/-- The bytes of the query `"cat"`. -/
def catPat : List Nat := [99, 97, 116]

/-- The bytes of the query `"CAT"`. -/
def catPatUpper : List Nat := [67, 65, 84]

/-- The bytes of `"xcatz"`. -/
def xcatzData : List Nat := [120, 99, 97, 116, 122]

/-- The bytes of the replacement `"atu"` (which does not contain `"cat"`). -/
def atuData : List Nat := [97, 116, 117]

/-- A concrete gap buffer with logical text `"ab"`: physical array
`"ab"` followed by 1022 filler bytes, gap `[2, 1024)`. -/
def abBuf : GapBuffer :=
  { content := [97, 98] ++ List.replicate 1022 120
    gap_start := 2
    gap_end := 1024
    buffer_size := 1024
    undo_stack := []
    redo_stack := []
    undo_count := 0
    redo_count := 0 }

/-- The file state `tab_add_file zeros1024 [] 1 [] [] false false 0`
produces for an empty file: a fresh gap buffer, cursor at the origin, not
modified (`tab_add_file … = some emptyFile` holds by `rfl`). -/
def emptyFile : FileBuffer :=
  { filepath := some []
    buffer := buffer_create zeros1024
    modified := false
    cursor_row := 0
    cursor_col := 0
    line_count := 1
    pattern := []
    replace_text := []
    case_sensitive := false
    whole_word := false
    current_match := 0 }

/-- A concrete undo entry, for exercising history eviction. -/
def evictEntry : UndoEntry := ⟨.OP_INSERT, 0, [65]⟩

/-- `abBuf` with an undo history filled to the capacity
`MAX_UNDO_LEVELS = 100`. -/
def fullHistBuf : GapBuffer :=
  { abBuf with undo_stack := List.replicate 100 evictEntry, undo_count := 100 }

/-- A concrete file state over `abBuf` with an empty search pattern. -/
def abFile : FileBuffer :=
  { filepath := some []
    buffer := abBuf
    modified := false
    cursor_row := 0
    cursor_col := 0
    line_count := 1
    pattern := []
    replace_text := []
    case_sensitive := false
    whole_word := false
    current_match := 0 }

/-! ## Helper lemmas -/

/-- `emptyFile` is exactly the state `tab_add_file` builds for an empty
file with the unspecified fields instantiated as in the scenarios. -/
theorem tab_add_file_emptyFile :
    tab_add_file zeros1024 [] 1 [] [] false false 0 = some emptyFile := rfl

/-- Setting an element at or beyond the taken prefix does not change the
prefix. -/
theorem take_set_of_le {α : Type*} (a : α) (l : List α) :
    ∀ {n m : Nat}, m ≤ n → (l.set n a).take m = l.take m := by
  induction l with
  | nil => intro n m _; simp
  | cons x xs ih =>
      intro n m h
      cases n with
      | zero =>
          have : m = 0 := Nat.le_zero.mp h
          simp [this]
      | succ n' =>
          cases m with
          | zero => simp
          | succ m' =>
              simp only [List.set, List.take]
              rw [ih (Nat.le_of_succ_le_succ h)]

/-- `buffer_delete_char` only moves the gap bounds. -/
theorem buffer_delete_char_undo_stack (b : GapBuffer) (p : Nat) :
    (buffer_delete_char b p).undo_stack = b.undo_stack := by
  unfold buffer_delete_char
  split <;> first | (split <;> rfl) | rfl

/-- `buffer_grow` copies the array but never writes the history fields. -/
theorem buffer_grow_undo_stack (b : GapBuffer) (m : Nat) (b' : GapBuffer)
    (h : buffer_grow b m = some b') : b'.undo_stack = b.undo_stack := by
  unfold buffer_grow at h
  dsimp only at h
  split at h
  · exact (Option.some.inj h) ▸ rfl
  · exact absurd h (by simp)

/-- `buffer_insert_core` only rewrites the array and the gap bounds. -/
theorem buffer_insert_core_undo_stack (b : GapBuffer) (c p : Nat) :
    (buffer_insert_core b c p).undo_stack = b.undo_stack := by
  unfold buffer_insert_core
  split <;> first | rfl | (split <;> rfl)

/-- `buffer_insert_char` never writes the history fields. -/
theorem buffer_insert_char_undo_stack (b : GapBuffer) (c p : Nat) (b' : GapBuffer)
    (h : buffer_insert_char b c p = some b') : b'.undo_stack = b.undo_stack := by
  unfold buffer_insert_char at h
  split at h
  · cases hg : buffer_grow b (b.buffer_size + 1) with
    | none => rw [hg] at h; exact absurd h (by simp)
    | some g =>
        rw [hg] at h
        simp only [Option.map_some'] at h
        rw [← Option.some.inj h, buffer_insert_core_undo_stack]
        exact buffer_grow_undo_stack b _ g hg
  · rw [← Option.some.inj h, buffer_insert_core_undo_stack]

/-- One keystroke through the text-input fragment of `editor_process_key`
records nothing in the undo history. -/
theorem editor_process_text_key_undo_stack (fb : FileBuffer) (k : Nat) (fb' : FileBuffer)
    (h : editor_process_text_key fb k = some fb') :
    fb'.buffer.undo_stack = fb.buffer.undo_stack := by
  unfold editor_process_text_key at h
  dsimp only at h
  split at h
  · cases hi : buffer_insert_char fb.buffer k (fb.cursor_row * MAX_LINE_LENGTH + fb.cursor_col) with
    | none => rw [hi] at h; exact absurd h (by simp)
    | some b =>
        rw [hi] at h
        simp only [Option.map_some'] at h
        rw [← Option.some.inj h]
        exact buffer_insert_char_undo_stack _ _ _ _ hi
  · split at h
    · split at h
      · rw [← Option.some.inj h]
        exact buffer_delete_char_undo_stack _ _
      · rw [← Option.some.inj h]
    · rw [← Option.some.inj h]

/-! ## Claim theorems -/

/-- Claim C1: the claim states that after `k` single-character
inserts/deletes through the editor's key handling, `k` undos restore the
prior byte content.  The code's key handler never records any undo action,
so `undo_perform` has nothing to invert: already for `k = 1` — a fresh
empty buffer, one keyed insert of `'a'` (byte 97), one undo — the buffer
text stays `"a"` instead of returning to the empty prior content. -/
theorem C1_undo_after_keyed_edit_does_not_restore :
    (tab_add_file zeros1024 [] 1 [] [] false false 0).map (fun fb => fb.buffer.text)
        = some [] ∧
    (((tab_add_file zeros1024 [] 1 [] [] false false 0).bind
          fun fb => process_keys fb [97]).bind menu_callback_undo).map
        (fun fb => fb.buffer.text) = some [97] ∧
    ([97] : List Nat) ≠ [] := by
  refine ⟨rfl, rfl, by decide⟩

/-- Claim C2: the claim states that every atomic keyed insert/delete pushes
an `UndoAction` capturing the mutated text.  `undo_push` is never called
from any mutation path: after a keyed insert of `'a'` into a fresh empty
buffer the text has changed to `"a"` but the undo stack is still empty and
`undo_count` is still `0`. -/
theorem C2_keyed_mutation_pushes_no_undo_action :
    ((tab_add_file zeros1024 [] 1 [] [] false false 0).bind
        fun fb => process_keys fb [97]).map
      (fun fb => (fb.buffer.text, fb.buffer.undo_stack, fb.buffer.undo_count))
      = some ([97], [], 0) := by
  rfl

/-- Claim C5: the claim states that when saving fails the buffer content is
preserved, the operation is aborted, and the modified flag remains set.
The Ctrl+S handler calls the `void` `buffer_save_file` — which returns
silently when `fopen` fails, writing nothing — and then clears
`fb->modified` unconditionally: content preserved and operation aborted
hold, but the dirty flag is cleared, not kept. -/
theorem C5_failed_save_clears_modified_flag :
    ∀ (fb : FileBuffer) (path : List Nat),
      editor_ctrl_s { fb with filepath := some path } false
        = ({ fb with filepath := some path, modified := false }, none) := by
  intro fb path
  rfl

/-- Claim C7: the claim states that a multi-line comment opened on row `i`
and closed on row `j` classifies rows `i+1 … j-1` as comment.
`render_syntax_highlighted_line` has no multi-line comment handling and no
cross-row state at all: for the buffer `"/* a" / "b" / "*/ c"` every byte
of every row is classified `normal`, and in general the classification of
a row depends on that row alone. -/
theorem C7_no_multiline_comment_classification :
    classify_buffer [[47, 42, 32, 97], [98], [42, 47, 32, 99]] =
        [[(47, .normal), (42, .normal), (32, .normal), (97, .normal)],
         [(98, .normal)],
         [(42, .normal), (47, .normal), (32, .normal), (99, .normal)]] ∧
    ∀ (rows1 rows2 : List (List Nat)) (i : Nat), rows1[i]? = rows2[i]? →
      (classify_buffer rows1)[i]? = (classify_buffer rows2)[i]? := by
  refine ⟨rfl, ?_⟩
  intro rows1 rows2 i h
  simp only [classify_buffer, List.getElem?_map, h]

/-- Witness for the hypothesis-bearing half of C7: two buffers agreeing on
row 1 classify row 1 identically whatever their other rows hold. -/
theorem C7_no_multiline_comment_classification_witness :
    (classify_buffer [[47, 42], [98]])[1]? = (classify_buffer [[], [98]])[1]? :=
  C7_no_multiline_comment_classification.2 [[47, 42], [98]] [[], [98]] 1 (by decide)

/-- Claim C9: a search initiated with an empty query is a no-op, not an
error: `search_find_next` returns `-1` with the file state — buffer,
cursor, match counter — returned unchanged, and `search_replace_current`
returns the state unchanged as well. -/
theorem C9_empty_query_is_noop :
    ∀ fb : FileBuffer, fb.pattern = [] →
      search_find_next fb = (fb, -1) ∧ search_replace_current fb = some fb := by
  intro fb h
  constructor
  · simp [search_find_next, h]
  · simp [search_replace_current, h]

/-- Witness for C9 at a concrete file state. -/
theorem C9_empty_query_is_noop_witness :
    search_find_next abFile = (abFile, -1) ∧ search_replace_current abFile = some abFile :=
  C9_empty_query_is_noop abFile rfl

/-- Claim C3: the claim states that on the one-row buffer
`"cat scatter cats"` the query `"cat"` yields 1 match with whole-word on,
3 with it off, and that a case-insensitive `"CAT"` matches all 3.
`search_match` never reads the `whole_word` flag and tests whether the
pattern occurs *anywhere* in the row suffix starting at the probed column,
so stepping `search_find_next` from the start succeeds once per column
`1 … 12`: the count is 12 for `"cat"` regardless of both uninitialized
flags, and for `"CAT"` it is 12 case-insensitively and 0 case-sensitively —
never 1 or 3. -/
theorem C3_search_ignores_whole_word_and_overcounts :
    ∀ cs ww : Bool,
      (tab_add_file zeros1024 catData 1 catPat [] cs ww 0).map (search_count 16)
          = some 12 ∧
      (tab_add_file zeros1024 catData 1 catPatUpper [] false ww 0).map (search_count 16)
          = some 12 ∧
      (tab_add_file zeros1024 catData 1 catPatUpper [] true ww 0).map (search_count 16)
          = some 0 ∧
      (12 : Nat) ≠ 1 ∧ (12 : Nat) ≠ 3 := by
  intro cs ww
  cases cs <;> cases ww <;> exact ⟨rfl, rfl, rfl, by decide, by decide⟩

/-- Claim C4: the claim states that after replace-all of `old` by `new`
(with `old` not occurring in `new`) a subsequent search for `old` finds
nothing.  On the one-row buffer `"xcatz"` with `old = "cat"`,
`new = "atu"`: `search_replace_current` deletes at a fixed position — which
`buffer_delete_char` resolves to the *end* of the pre-gap text — and
re-inserts through the defective `pos < gap_start` path of
`buffer_insert_char`, leaving the buffer `"xcatu"`; `replace_all` then
stops (its scan starts past the cursor), and a fresh `search_find_next`
from the origin still finds `"cat"` (return `1`), which is indeed still an
infix of the buffer. -/
theorem C4_replace_all_leaves_a_match :
    ∀ cs ww : Bool,
      ((tab_add_file zeros1024 xcatzData 1 catPat atuData cs ww 0).bind
            (search_replace_all 16)).map (fun p => (p.1.buffer.text, p.2))
          = some (([120, 99, 97, 116, 117], 1)) ∧
      ((tab_add_file zeros1024 xcatzData 1 catPat atuData cs ww 0).bind
            (search_replace_all 16)).map
          (fun p => (search_find_next { p.1 with cursor_row := 0, cursor_col := 0 }).2)
          = some 1 ∧
      strstrB [120, 99, 97, 116, 117] catPat = true ∧
      strstrB atuData catPat = false ∧
      strstrB xcatzData catPat = true := by
  intro cs ww
  cases cs <;> cases ww <;> exact ⟨rfl, rfl, rfl, rfl, rfl⟩

/-- Claim C6: the claim states that loading any file that fits in memory
and saving it back reproduces its byte content (modulo a trailing
terminator).  For files of at most `INITIAL_BUFFER_SIZE` (1024) bytes the
round trip is exact (no normalization at all).  But for any larger file
`buffer_load_file` calls `buffer_grow`, whose tail `memcpy` length
`buffer_size - gap_end` is computed from the already-updated `gap_end`
(greater than `buffer_size`), wrapping around in `size_t`: an enormous
out-of-bounds copy, so the claim fails for every file over 1024 bytes —
e.g. 1025 bytes of `'0'`. -/
theorem C6_round_trip_exact_up_to_1024_crashes_beyond :
    (∀ (data init : List Nat), data.length ≤ INITIAL_BUFFER_SIZE →
        (buffer_load_file (buffer_create init) data).map (fun b => buffer_save_file b true)
          = some (some data)) ∧
    buffer_load_file (buffer_create zeros1024) (List.replicate 1025 48) = none := by
  constructor
  · intro data init h1
    have hsave : ∀ b : GapBuffer, buffer_save_file b true = some (saved_bytes b) :=
      fun b => rfl
    simp only [buffer_load_file, buffer_create]
    rw [if_neg (Nat.not_lt.mpr h1)]
    simp only [Option.map_some', hsave, saved_bytes, GapBuffer.text, Option.some.injEq]
    rw [Nat.sub_self, List.take_zero, List.append_nil, List.take_left]
  · rfl

/-- Witness for the hypothesis-bearing half of C6: a 2-byte file
round-trips exactly. -/
theorem C6_round_trip_witness :
    (buffer_load_file (buffer_create zeros1024) [104, 105]).map
        (fun b => buffer_save_file b true) = some (some [104, 105]) :=
  C6_round_trip_exact_up_to_1024_crashes_beyond.1 [104, 105] zeros1024 (by decide)

/-- Claim C8: excess undo attempts are harmless and eviction drops the
oldest entry.  (1) The editor's keyed inserts/deletes never record an
action, so however many edits were performed, every undo attempt is in
excess of the recorded actions; (2) `undo_perform` on an empty history
returns the buffer — content included — unchanged; (3) `undo_push` at
capacity `MAX_UNDO_LEVELS` drops the oldest (tail) entry, which then
appears in neither stack (the redo stack is cleared), so it is
unrecoverable. -/
theorem C8_history_eviction_and_empty_undo_noop :
    (∀ (fb : FileBuffer) (keys : List Nat), fb.buffer.undo_stack = [] →
        undo_stack_of (process_keys fb keys) = []) ∧
    (∀ buf : GapBuffer, buf.undo_stack = [] → undo_perform buf = some buf) ∧
    (∀ (buf : GapBuffer) (t : OperationType) (p : Nat) (d : List Nat),
        buf.undo_count ≥ MAX_UNDO_LEVELS → buf.undo_stack ≠ [] →
        (undo_push buf t p d).undo_stack = ⟨t, p, d⟩ :: buf.undo_stack.dropLast ∧
        (undo_push buf t p d).redo_stack = []) := by
  refine ⟨?_, ?_, ?_⟩
  · intro fb keys
    induction keys generalizing fb with
    | nil => intro h; simpa [process_keys, undo_stack_of] using h
    | cons k ks ih =>
        intro h
        simp only [process_keys]
        cases hk : editor_process_text_key fb k with
        | none => simp [undo_stack_of]
        | some fb1 =>
            simp only [Option.some_bind]
            exact ih fb1 ((editor_process_text_key_undo_stack fb k fb1 hk).trans h)
  · intro buf h
    simp [undo_perform, h]
  · intro buf t p d h1 h2
    simp [undo_push, if_pos h1, if_neg h2]

/-- Witness for C8: 105 keyed inserts (more than the capacity 100) record
nothing, an undo on the resulting empty history is a no-op, and a push
onto a full history evicts the tail entry. -/
theorem C8_history_eviction_witness :
    undo_stack_of (process_keys emptyFile (List.replicate 105 97)) = [] ∧
    undo_perform abBuf = some abBuf ∧
    ((undo_push fullHistBuf .OP_DELETE 3 [66]).undo_stack
        = ⟨.OP_DELETE, 3, [66]⟩ :: fullHistBuf.undo_stack.dropLast ∧
      (undo_push fullHistBuf .OP_DELETE 3 [66]).redo_stack = []) :=
  ⟨C8_history_eviction_and_empty_undo_noop.1 emptyFile (List.replicate 105 97) rfl,
   C8_history_eviction_and_empty_undo_noop.2.1 abBuf rfl,
   C8_history_eviction_and_empty_undo_noop.2.2 fullHistBuf .OP_DELETE 3 [66]
     (by decide) (by decide)⟩

/-- Claim C10 counterexample: the claim states that for *every* position
`p` not past the logical length, inserting `c` at `p` and deleting at `p`
restores the logical content.  On the buffer with logical text `"ab"`
(gap at `[2, 1024)`), inserting `'c'` at `p = 0` and deleting at `0`
yields `"a"`, not `"ab"`: the insert path for `pos < gap_start` both
misplaces the new byte and strands the shifted tail inside the gap, and
the delete removes the byte at `gap_start - 1`, not at `pos`. -/
theorem C10_insert_delete_not_inverse_at_0 :
    abBuf.text = [97, 98] ∧
    (buffer_insert_char abBuf 99 0).map (fun b => (buffer_delete_char b 0).text)
        = some [97] ∧
    ¬ (buffer_insert_char abBuf 99 0).map (fun b => (buffer_delete_char b 0).text)
        = some abBuf.text := by
  refine ⟨rfl, rfl, by decide⟩

/-- Claim C10 as amended: the insert/delete round trip does hold at the
gap and immediately before it — `p = gap_start` (the insert appends
correctly and the delete removes the appended byte) and
`p = gap_start - 1` (the insert wrongly places the byte at `pos + 1 =
gap_start` and the delete wrongly removes the byte at `gap_start - 1 =
pos + 1` of the new state, so the two errors cancel).  The gap must be
nonempty so that no grow is triggered.  The `p = 0` counterexample shows
it fails at lower positions. -/
theorem C10_insert_delete_inverse_at_or_before_gap :
    ∀ (buf : GapBuffer) (c p : Nat), buf.gap_start < buf.gap_end →
      buf.gap_end ≤ buf.content.length →
      (p = buf.gap_start ∨ p + 1 = buf.gap_start) →
      (buffer_insert_char buf c p).map (fun b => (buffer_delete_char b p).text)
        = some buf.text := by
  intro buf c p hgap hlen hp
  have hgapne : ¬ (buf.gap_end - buf.gap_start = 0) := by omega
  simp only [buffer_insert_char, if_neg hgapne, Option.map_some', Option.some.injEq]
  rcases hp with hp | hp
  · subst hp
    have hcore : buffer_insert_core buf c buf.gap_start
        = { buf with content := buf.content.set buf.gap_start c,
                     gap_start := buf.gap_start + 1 } := by
      simp [buffer_insert_core]
    rw [hcore]
    have hdel : buffer_delete_char
        { buf with content := buf.content.set buf.gap_start c,
                   gap_start := buf.gap_start + 1 } buf.gap_start
        = { buf with content := buf.content.set buf.gap_start c,
                     gap_start := buf.gap_start } := by
      simp [buffer_delete_char]
    rw [hdel]
    simp only [GapBuffer.text]
    congr 1
    · exact take_set_of_le c buf.content (Nat.le_refl _)
    · rw [List.drop_set_of_lt c buf.content hgap]
  · have hplt : p < buf.gap_start := by omega
    have hsub : buf.gap_start - p = 1 := by omega
    have hcore : buffer_insert_core buf c p
        = { buf with content := (listMemmove buf.content (p + 1) p 1).set (p + 1) c,
                     gap_start := p + 2 } := by
      simp only [buffer_insert_core, if_pos hplt, hsub]
    rw [hcore]
    have hdel : buffer_delete_char
        { buf with content := (listMemmove buf.content (p + 1) p 1).set (p + 1) c,
                   gap_start := p + 2 } p
        = { buf with content := (listMemmove buf.content (p + 1) p 1).set (p + 1) c,
                     gap_start := p + 1 } := by
      have hnot : ¬ (p ≥ p + 2) := by omega
      simp [buffer_delete_char, hnot]
    rw [hdel]
    simp only [GapBuffer.text]
    rw [← hp]
    have hA : (buf.content.take (p + 1)).length = p + 1 := by
      rw [List.length_take]
      exact Nat.min_eq_left (by omega)
    congr 1
    · rw [take_set_of_le c _ (Nat.le_refl _)]
      simp only [listMemmove]
      rw [List.append_assoc]
      exact List.take_left' hA
    · rw [List.drop_set_of_lt c _ (by omega : p + 1 < buf.gap_end)]
      congr 1
      apply List.ext_getElem?
      intro n
      rw [List.getElem?_drop, List.getElem?_drop]
      simp only [listMemmove]
      rw [List.append_assoc]
      rw [List.getElem?_append_right (by rw [hA]; omega)]
      rw [hA]
      have hB : ((buf.content.drop p).take 1).length = 1 := by
        rw [List.length_take, List.length_drop]
        exact Nat.min_eq_left (by omega)
      rw [List.getElem?_append_right (by rw [hB]; omega)]
      rw [hB]
      rw [List.getElem?_drop]
      have hidx : p + 1 + 1 + (buf.gap_end + n - (p + 1) - 1) = buf.gap_end + n := by omega
      rw [hidx]

/-- Witness for the amended C10 at the concrete `"ab"` buffer
(`gap_start = 2`), at both covered positions `p = 2` and `p = 1`. -/
theorem C10_insert_delete_inverse_at_or_before_gap_witness :
    ((buffer_insert_char abBuf 99 2).map (fun b => (buffer_delete_char b 2).text)
        = some abBuf.text) ∧
    ((buffer_insert_char abBuf 99 1).map (fun b => (buffer_delete_char b 1).text)
        = some abBuf.text) :=
  ⟨C10_insert_delete_inverse_at_or_before_gap abBuf 99 2 (by decide) (by decide) (Or.inl rfl),
   C10_insert_delete_inverse_at_or_before_gap abBuf 99 1 (by decide) (by decide) (Or.inr rfl)⟩

end Ede
